import Mathlib

/-!
Verification of the heading-hierarchy subsystem of the repository:
the live tracker in `src/components/ui/Heading.tsx` (the `HeadingProvider`
context with its `registerHeading` callback, and the tree auditor
`validateHeadingHierarchy`), and the offline CLI auditor
`src/scripts/audit-heading-hierarchy.js` (`HEADING_PATTERNS`,
`extractHeadings`, `validateFileHierarchy`).

Machine integers do not matter here (all levels are small naturals), so
levels are embedded as `Nat`.  React state updates are embedded as explicit
state passing: a scope is a record holding the tracked level, and a
registration returns the warning log, the returned value and the new state.
-/

/-- The development warning string built by `registerHeading`
(`Heading.tsx` lines 30-33). -/
def warnMessage (currentLevel level : Nat) : String :=
  "Heading hierarchy violation: Jumping from H" ++ toString currentLevel ++
    " to H" ++ toString level ++ ". Consider using H" ++
    toString (currentLevel + 1) ++ " instead."

/-- Outcome of one `registerHeading` call: the `console.warn` messages it
emitted, the value it returned (the TS function has return type `void`, so
the embedded returned diagnostic is an `Option` that the code never fills),
and the level stored into the React state by `setCurrentLevel`. -/
structure RegisterResult where
  warnings : List String
  retVal : Option String
  newLevel : Nat
deriving DecidableEq

/-- Embeds `registerHeading` (`Heading.tsx` lines 26-37).  In the
development configuration (`NODE_ENV === 'development'`, here `isDev`) it
warns iff `level > currentLevel + 1`; in every configuration it then runs
`setCurrentLevel(level)` and returns `undefined`. -/
def registerHeading (isDev : Bool) (currentLevel level : Nat) : RegisterResult :=
  { warnings :=
      if isDev then
        if level > currentLevel + 1 then [warnMessage currentLevel level] else []
      else []
    retVal := none
    newLevel := level }

/-- The mutable state owned by one `HeadingProvider` mount
(`Heading.tsx` lines 23-24): `useState(initialLevel)`.  The initial level is
kept alongside so that a scope remembers what it was created with. -/
structure HierarchyScope where
  initialLevel : Nat
  currentLevel : Nat
deriving DecidableEq

/-- Mounting a `HeadingProvider` with `initialLevel` (`Heading.tsx` line 24). -/
def createScope (initialLevel : Nat) : HierarchyScope :=
  { initialLevel := initialLevel, currentLevel := initialLevel }

/-- One registration against a scope: `registerHeading` reads the scope's
current level and the state update stores the new one. -/
def registerScope (isDev : Bool) (s : HierarchyScope) (level : Nat) :
    RegisterResult × HierarchyScope :=
  let r := registerHeading isDev s.currentLevel level
  (r, { s with currentLevel := r.newLevel })

/-- Sequentially register a list of levels on a scope, in document order,
collecting all emitted warnings and the final scope state. -/
def runRegister (isDev : Bool) (s : HierarchyScope) : List Nat → List String × HierarchyScope
  | [] => ([], s)
  | l :: ls =>
    let p := registerScope isDev s l
    let q := runRegister isDev p.2 ls
    (p.1.warnings ++ q.1, q.2)

/-- Modelled from the spec: `reset(scope)` ("the scope must be resettable to
its initial watermark").  No reset operation exists in `src/`: the
`HeadingProvider` exposes only registration, and a fresh scope only arises by
mounting a new provider.  Per the spec's words, reset restores the scope to
the depth it was created with. -/
def resetScope (s : HierarchyScope) : HierarchyScope :=
  { s with currentLevel := s.initialLevel }

/-- The case-sensitive test `/^h[1-6]$/.test(node.type)` together with
`parseInt(node.type.charAt(1))` (`Heading.tsx` lines 135-136): `some level`
exactly when the tag is a lowercase `h` followed by one digit `1`-`6`. -/
def headingLevel? (tag : String) : Option Nat :=
  match tag.data with
  | ['h', c] => if '1' ≤ c ∧ c ≤ '6' then some (c.toNat - '0'.toNat) else none
  | _ => none

/-- The error string pushed by `validateHeadingHierarchy`
(`Heading.tsx` lines 139-142).  `node.type.toUpperCase()` of a matched tag
`h<d>` is `H<d>`, embedded as `"H" ++ toString level`. -/
def auditMessage (lastLevel level : Nat) : String :=
  "Heading hierarchy violation: Found H" ++ toString level ++ " after H" ++
    toString lastLevel ++ ". Consider using H" ++ toString (lastLevel + 1) ++
    " instead."

mutual
/-- A `ReactNode` as `validateHeadingHierarchy` observes it: an element whose
`type` is a string tag, an element whose `type` is a component (a valid
element, but `typeof node.type !== 'string'`), or a non-element node
(text, null, ...), for which `React.isValidElement` is false. -/
inductive RNode where
  | tagElem (tag : String) (children : RForest)
  | compElem (children : RForest)
  | textNode (s : String)

/-- The `props.children` of an element, in `React.Children.forEach` order. -/
inductive RForest where
  | nil
  | cons (t : RNode) (ts : RForest)
end

/-- Turn a plain list of nodes into a forest. -/
def forestOf : List RNode → RForest
  | [] => .nil
  | t :: ts => .cons t (forestOf ts)

mutual
/-- Embeds the inner `traverse` function of `validateHeadingHierarchy`
(`Heading.tsx` lines 132-154), renamed `traverseNode` to avoid clashing with
the library's `Traversable.traverse`: the mutated pair `(lastLevel, errors)`
is passed explicitly.  A string-typed element is heading-checked first, then
its children are traversed; a component element is traversed transparently;
a non-element node is skipped. -/
def traverseNode (node : RNode) (st : Nat × List String) : Nat × List String :=
  match node with
  | .textNode _ => st
  | .compElem cs => traverseChildren cs st
  | .tagElem tag cs =>
    let st1 :=
      match headingLevel? tag with
      | some level =>
        if level > st.1 + 1 then (level, st.2 ++ [auditMessage st.1 level])
        else (level, st.2)
      | none => st
    traverseChildren cs st1

/-- `React.Children.forEach(props.children, traverseNode)`. -/
def traverseChildren (ts : RForest) (st : Nat × List String) : Nat × List String :=
  match ts with
  | .nil => st
  | .cons t ts => traverseChildren ts (traverseNode t st)
end

/-- Embeds `validateHeadingHierarchy` (`Heading.tsx` lines 128-158):
start from `lastLevel = 0` and an empty error list, traverse, return the
errors. -/
def validateHeadingHierarchy (element : RNode) : List String :=
  (traverseNode element (0, [])).2

/-- The tag string `h<level>` for a heading leaf. -/
def headingTag (level : Nat) : String :=
  "h" ++ toString level

/-- A test-harness tree: a `div` whose children are the headings
`h<l>` for `l` in the given order (document order). -/
def treeOfLevels (levels : List Nat) : RNode :=
  .tagElem "div" (forestOf (levels.map fun l => .tagElem (headingTag l) .nil))

/-!
Embedding of `src/scripts/audit-heading-hierarchy.js`.

All four `HEADING_PATTERNS` regexes carry the `gi` flags, so the first
letter of each pattern matches either case; the open patterns are
`/<h([1-6])[^>]*>/gi` (`jsx`), `/<H([1-6])[^>]*>/gi` (`component`), and the
self-closing ones add a `/` right before the `>`.  A global `exec` loop is
a left-to-right scan: a successful match is consumed wholly (`lastIndex`
moves past it), a failed start position advances by one character.  Since
`[^>]*` cannot cross a `>`, a candidate starting at `<` + letter + digit
matches exactly up to the first following `>` (for the self-closing
patterns, only when the character before that `>` is `/`).  Every recursive
call shrinks the remaining content by at least one character, so running the
scan with `content.length` as fuel is exact.
-/

/-- How the leading letter of a `HEADING_PATTERNS` regex matches a content
character under the `i` flag: equal to its lowercase or uppercase form. -/
def matchesLetter (letter c : Char) : Bool :=
  c == letter.toLower || c == letter.toUpper

/-- The regex character class `([1-6])` with `parseInt` on the captured
digit (`audit-heading-hierarchy.js` line 49). -/
def levelDigit? (c : Char) : Option Nat :=
  if '1' ≤ c ∧ c ≤ '6' then some (c.toNat - '0'.toNat) else none

/-- Split a character list at its first `'>'`: the characters before it
(all matched by `[^>]`) and the characters after it. -/
def splitAtGt : List Char → Option (List Char × List Char)
  | [] => none
  | c :: rest =>
    if c = '>' then some ([], rest)
    else
      match splitAtGt rest with
      | some (pre, post) => some (c :: pre, post)
      | none => none

/-- Fuelled global scan for one `HEADING_PATTERNS` regex over the content,
returning `(match start index, captured level)` pairs in scan order.
`sc = true` adds the self-closing requirement that the character right
before the closing `>` is `/`. -/
def scanPatF (lt : Char → Bool) (sc : Bool) : Nat → List Char → Nat → List (Nat × Nat)
  | 0, _, _ => []
  | _ + 1, [], _ => []
  | fuel + 1, '<' :: rest, i =>
    (match rest with
     | c :: d :: rest2 =>
       if lt c then
         match levelDigit? d with
         | some level =>
           (match splitAtGt rest2 with
            | some (seg, post) =>
              if sc then
                if seg.getLast? = some '/' then
                  (i, level) :: scanPatF lt sc fuel post (i + 4 + seg.length)
                else scanPatF lt sc fuel rest (i + 1)
              else (i, level) :: scanPatF lt sc fuel post (i + 4 + seg.length)
            | none => scanPatF lt sc fuel rest (i + 1))
         | none => scanPatF lt sc fuel rest (i + 1)
       else scanPatF lt sc fuel rest (i + 1)
     | _ => scanPatF lt sc fuel rest (i + 1))
  | fuel + 1, _ :: rest, i => scanPatF lt sc fuel rest (i + 1)

/-- Run one pattern's global scan over a whole content; the pattern's
leading letter matches via `matchesLetter` (the `i` flag). -/
def scanPat (letter : Char) (sc : Bool) (content : List Char) : List (Nat × Nat) :=
  scanPatF (matchesLetter letter) sc content.length content 0

/-- Matches of `HEADING_PATTERNS.jsx`, `/<h([1-6])[^>]*>/gi`. -/
def jsxMatches (content : List Char) : List (Nat × Nat) :=
  scanPat 'h' false content

/-- Matches of `HEADING_PATTERNS.component`, `/<H([1-6])[^>]*>/gi`. -/
def componentMatches (content : List Char) : List (Nat × Nat) :=
  scanPat 'H' false content

/-- Matches of `HEADING_PATTERNS.selfClosing`, `/<h([1-6])[^>]*\/>/gi`. -/
def selfClosingMatches (content : List Char) : List (Nat × Nat) :=
  scanPat 'h' true content

/-- Matches of `HEADING_PATTERNS.componentSelfClosing`,
`/<H([1-6])[^>]*\/>/gi`. -/
def componentSelfClosingMatches (content : List Char) : List (Nat × Nat) :=
  scanPat 'H' true content

/-- `content.substring(0, index).split('\n').length`
(`audit-heading-hierarchy.js` line 51): one more than the number of
newlines before the match. -/
def lineAt (content : List Char) (i : Nat) : Nat :=
  1 + (content.take i).count '\x0a'

/-- One element of the `headings` array built by `extractHeadings`:
its level, its line number, and whether the pattern key includes
`'component'`.  The `match` text and `filePath` fields are carried through
unchanged by the script and are not needed by any violation computation, so
they are omitted. -/
structure HeadingEvent where
  level : Nat
  line : Nat
  isComponent : Bool
deriving DecidableEq

/-- Events contributed by one pattern's match list. -/
def eventsOf (content : List Char) (isComp : Bool) (ms : List (Nat × Nat)) :
    List HeadingEvent :=
  ms.map fun m => { level := m.2, line := lineAt content m.1, isComponent := isComp }

/-- Insert an event after every already-placed event whose line is not
greater: on a sorted list this is one step of a stable sort by line. -/
def insertByLine (e : HeadingEvent) : List HeadingEvent → List HeadingEvent
  | [] => [e]
  | x :: xs => if x.line ≤ e.line then x :: insertByLine e xs else e :: x :: xs

/-- The stable sort `headings.sort((a, b) => a.lineNumber - b.lineNumber)`
(`audit-heading-hierarchy.js` line 63): JS `Array.prototype.sort` is
stable, and a stable sort by line equals left-to-right stable insertion. -/
def sortByLine (es : List HeadingEvent) : List HeadingEvent :=
  es.foldl (fun acc e => insertByLine e acc) []

/-- Embeds `extractHeadings` (`audit-heading-hierarchy.js` lines 42-64):
the four patterns are scanned in the object order `jsx`, `component`,
`selfClosing`, `componentSelfClosing`, their events concatenated and then
sorted by line number. -/
def extractHeadings (content : List Char) : List HeadingEvent :=
  sortByLine
    (eventsOf content false (jsxMatches content) ++
      eventsOf content true (componentMatches content) ++
      eventsOf content false (selfClosingMatches content) ++
      eventsOf content true (componentSelfClosingMatches content))

/-- A violation pushed by `validateFileHierarchy`: a hierarchy skip (with
the offending level, the previous level and the line number that determine
its message), or the single per-file multiple-H1 report with its count.
The `filePath` pass-through field is omitted. -/
inductive ScriptViolation where
  | hierarchySkip (level previousLevel line : Nat)
  | multipleH1 (count : Nat)
deriving DecidableEq

/-- One iteration of the `headings.forEach` loop in `validateFileHierarchy`
(`audit-heading-hierarchy.js` lines 74-95) over the running
`(lastLevel, h1Count, violations)`. -/
def scriptStep (acc : Nat × Nat × List ScriptViolation) (h : HeadingEvent) :
    Nat × Nat × List ScriptViolation :=
  let lastLevel := acc.1
  let h1Count := if h.level = 1 then acc.2.1 + 1 else acc.2.1
  let violations :=
    if h.level > lastLevel + 1 then
      acc.2.2 ++ [.hierarchySkip h.level lastLevel h.line]
    else acc.2.2
  (h.level, h1Count, violations)

/-- Embeds `validateFileHierarchy` (`audit-heading-hierarchy.js`
lines 69-111): fold the per-heading loop from `lastLevel = 0`,
`h1Count = 0`, then append one `multipleH1` violation when `h1Count > 1`.
The mutation of the global `auditResults.summary` is report bookkeeping and
is not modelled. -/
def validateFileHierarchy (headings : List HeadingEvent) : List ScriptViolation :=
  let r := headings.foldl scriptStep (0, 0, [])
  if r.2.1 > 1 then r.2.2 ++ [.multipleH1 r.2.1] else r.2.2

/-- Count the heading events of a given level. -/
def countLevel (n : Nat) (es : List HeadingEvent) : Nat :=
  (es.filter fun e => e.level = n).length

/-- Count the matches of a given captured level. -/
def countLvl (n : Nat) (ms : List (Nat × Nat)) : Nat :=
  (ms.filter fun m => m.2 = n).length

/-- Modelled from the spec wording quoted by the watermark claim: a sequence
is watermark-legal when every element is a level in 1..6 that is at most one
level deeper than the deepest level seen so far (the running `max`),
shallow back-steps of any size allowed. -/
def specWatermarkLegal : Nat → List Nat → Bool
  | _, [] => true
  | w, l :: ls =>
    decide (1 ≤ l) && decide (l ≤ w + 1) && decide (l ≤ 6) &&
      specWatermarkLegal (max w l) ls

/-- A sequence is step-legal from a prior level when every element is a
level in 1..6 at most one level deeper than the immediately preceding
element (the prior level for the first element). -/
def stepLegal : Nat → List Nat → Bool
  | _, [] => true
  | p, l :: ls => decide (1 ≤ l) && decide (l ≤ p + 1) && decide (l ≤ 6) && stepLegal l ls

mutual
/-- No node of the tree is a string-typed element with a heading tag. -/
def noHeadingTree : RNode → Bool
  | .textNode _ => true
  | .compElem cs => noHeadingForest cs
  | .tagElem tag cs => (headingLevel? tag).isNone && noHeadingForest cs

/-- No node of the forest is, or contains, a heading element. -/
def noHeadingForest : RForest → Bool
  | .nil => true
  | .cons t ts => noHeadingTree t && noHeadingForest ts
end

/-- Whether a script violation is the per-file multiple-H1 report. -/
def isMultipleH1 : ScriptViolation → Bool
  | .multipleH1 _ => true
  | .hierarchySkip _ _ _ => false

/-! ## Helper lemmas -/

theorem runRegister_nil (dev : Bool) (s : HierarchyScope) :
    runRegister dev s [] = ([], s) := rfl

theorem runRegister_cons (dev : Bool) (s : HierarchyScope) (l : Nat) (ls : List Nat) :
    runRegister dev s (l :: ls) =
      ((registerHeading dev s.currentLevel l).warnings ++
          (runRegister dev (registerScope dev s l).2 ls).1,
        (runRegister dev (registerScope dev s l).2 ls).2) := rfl

theorem registerScope_currentLevel (dev : Bool) (s : HierarchyScope) (l : Nat) :
    ((registerScope dev s l).2).currentLevel = l := rfl

theorem registerScope_initialLevel (dev : Bool) (s : HierarchyScope) (l : Nat) :
    ((registerScope dev s l).2).initialLevel = s.initialLevel := rfl

theorem runRegister_currentLevel (dev : Bool) :
    ∀ (seq : List Nat) (s : HierarchyScope),
      ((runRegister dev s seq).2).currentLevel = seq.getLast?.getD s.currentLevel
  | [], _ => rfl
  | [l], s => by
    rw [runRegister_cons, runRegister_nil]
    rfl
  | l :: x :: xs, s => by
    rw [runRegister_cons]
    show ((runRegister dev (registerScope dev s l).2 (x :: xs)).2).currentLevel = _
    rw [runRegister_currentLevel dev (x :: xs) (registerScope dev s l).2]
    rw [List.getLast?_cons_cons]
    rfl

theorem runRegister_initialLevel (dev : Bool) :
    ∀ (seq : List Nat) (s : HierarchyScope),
      ((runRegister dev s seq).2).initialLevel = s.initialLevel
  | [], _ => rfl
  | l :: ls, s => by
    rw [runRegister_cons]
    show ((runRegister dev (registerScope dev s l).2 ls).2).initialLevel = _
    rw [runRegister_initialLevel dev ls (registerScope dev s l).2]
    rfl

theorem registerHeading_no_warn (dev : Bool) (cur l : Nat) (h : l ≤ cur + 1) :
    (registerHeading dev cur l).warnings = [] := by
  have hnot : ¬ (cur + 1 < l) := by omega
  simp [registerHeading, hnot]

theorem registerHeading_warn (cur l : Nat) (h : cur + 1 < l) :
    (registerHeading true cur l).warnings = [warnMessage cur l] := by
  simp [registerHeading, h]

/-! ## C1: what register does to the tracked level -/

/-- C1 counterexample: `registerHeading` runs `setCurrentLevel(level)`, not a
`max`: on a fresh scope, registering 2 and then 1 leaves the tracked level at
1, so the tracked depth is not `max(currentDepth, level)` and is not
monotonically non-decreasing. -/
theorem C1_counterexample :
    ((registerScope true (createScope 0) 2).2).currentLevel = 2 ∧
    ((runRegister true (createScope 0) [2, 1]).2).currentLevel = 1 ∧
    ¬ (∀ (s : HierarchyScope) (l : Nat),
        ((registerScope true s l).2).currentLevel = max s.currentLevel l) := by
  refine ⟨rfl, rfl, fun h => ?_⟩
  have h21 := h (createScope 2) 1
  simp [registerScope, registerHeading, createScope] at h21

/-- C1 amended: each register call applies the violation rule with
`priorLevel = scope.currentLevel` and then stores the registered level
itself (`setCurrentLevel(level)`), so after a registration sequence the
tracked level is the last registered level (the initial depth for the empty
sequence), not the deepest level seen. -/
theorem C1_register_tracks_last_level (dev : Bool) (init : Nat) (seq : List Nat) :
    (∀ (s : HierarchyScope) (l : Nat),
      (registerScope dev s l).1.warnings = (registerHeading dev s.currentLevel l).warnings ∧
      ((registerScope dev s l).2).currentLevel = l) ∧
    ((runRegister dev (createScope init) seq).2).currentLevel = seq.getLast?.getD init := by
  refine ⟨fun s l => ⟨rfl, rfl⟩, ?_⟩
  rw [runRegister_currentLevel]
  rfl

/-! ## C2: the first registration on a fresh scope -/

/-- C2 counterexample: on a fresh scope with initial depth 0, the very first
registration at level 2 already warns (`2 > 0 + 1`), the sequence `[2, 4]`
yields two violations rather than one, and the static audit of a `[2, 4]`
tree likewise reports two violations. -/
theorem C2_counterexample :
    (runRegister true (createScope 0) [2]).1 ≠ [] ∧
    (runRegister true (createScope 0) [2, 4]).1.length = 2 ∧
    (validateHeadingHierarchy (treeOfLevels [2, 4])).length = 2 := by
  decide

/-- C2 amended: with `priorLevel = 0` the rule `level > priorLevel + 1`
exempts only level 1, so the first registration on a fresh scope with
initial depth 0 warns iff its level exceeds 1; the sequence `[2, 4]`
produces exactly the two warnings for the 2 and for the 4, and the static
audit of a `[2, 4]` tree reports exactly the matching two violations. -/
theorem C2_first_register_flags_iff (l : Nat) (h1 : 1 ≤ l) (h6 : l ≤ 6) :
    ((runRegister true (createScope 0) [l]).1 ≠ [] ↔ 1 < l) ∧
    (runRegister true (createScope 0) [2, 4]).1 = [warnMessage 0 2, warnMessage 2 4] ∧
    validateHeadingHierarchy (treeOfLevels [2, 4]) = [auditMessage 0 2, auditMessage 2 4] := by
  refine ⟨?_, by decide, by decide⟩
  rw [runRegister_cons, runRegister_nil]
  show (registerHeading true (createScope 0).currentLevel l).warnings ++ [] ≠ [] ↔ 1 < l
  by_cases h : 1 < l
  · have : (createScope 0).currentLevel + 1 < l := by
      show 0 + 1 < l
      omega
    rw [registerHeading_warn _ _ this]
    simp [h, warnMessage]
  · have : l ≤ (createScope 0).currentLevel + 1 := by
      show l ≤ 0 + 1
      omega
    rw [registerHeading_no_warn _ _ _ this]
    simp [h]

/-- C2 witness: the amended statement evaluated at level 4. -/
theorem C2_witness :
    (1 ≤ 4 ∧ 4 ≤ 6) ∧
    (((runRegister true (createScope 0) [4]).1 ≠ [] ↔ 1 < 4) ∧
      (runRegister true (createScope 0) [2, 4]).1 = [warnMessage 0 2, warnMessage 2 4] ∧
      validateHeadingHierarchy (treeOfLevels [2, 4]) = [auditMessage 0 2, auditMessage 2 4]) :=
  ⟨⟨by decide, by decide⟩, C2_first_register_flags_iff 4 (by decide) (by decide)⟩

/-! ## C6: what register returns in each configuration -/

/-- C6 counterexample: at `priorLevel = 1`, `level = 4` the rule flags (the
development configuration logs a warning), yet `registerHeading` still
returns no value in either configuration — the violation report is never
the return value. -/
theorem C6_counterexample :
    (registerHeading true 1 4).warnings ≠ [] ∧
    (registerHeading true 1 4).retVal = none ∧
    (registerHeading false 1 4).retVal = none := by
  decide

/-- C6 amended: `registerHeading` has return type `void`, so its returned
value is the same (no value) in the development and production
configurations whatever the levels; the configurations differ only in the
warning log, which production never emits, and the state update is
identical in both. -/
theorem C6_return_value_mode_independent (dev dev' : Bool) (prior level : Nat) :
    (registerHeading dev prior level).retVal = (registerHeading dev' prior level).retVal ∧
    (registerHeading dev prior level).retVal = none ∧
    (registerHeading false prior level).warnings = [] ∧
    (registerHeading dev prior level).newLevel = (registerHeading dev' prior level).newLevel := by
  refine ⟨rfl, rfl, ?_, rfl⟩
  simp [registerHeading]

/-! ## C8: the violation message -/

/-- C8: whenever the rule flags, the development warning is exactly
`warnMessage priorLevel level`, which names the prior level, the observed
level, and suggests `priorLevel + 1`; concretely, `[1, 4]` on a fresh scope
yields exactly one warning, for observed level 4 after prior level 1 with
the suggestion of level 2, and the static audit of a `[1, 4]` tree reports
the matching single message. -/
theorem C8_message_names_levels (prior level : Nat) (h : prior + 1 < level) :
    (registerHeading true prior level).warnings = [warnMessage prior level] ∧
    (runRegister true (createScope 0) [1, 4]).1 =
      ["Heading hierarchy violation: Jumping from H1 to H4. Consider using H2 instead."] ∧
    validateHeadingHierarchy (treeOfLevels [1, 4]) =
      ["Heading hierarchy violation: Found H4 after H1. Consider using H2 instead."] := by
  exact ⟨registerHeading_warn prior level h, by decide, by decide⟩

/-- C8 witness: the message facts evaluated at prior level 1, observed
level 4. -/
theorem C8_witness :
    1 + 1 < 4 ∧
    ((registerHeading true 1 4).warnings = [warnMessage 1 4] ∧
      (runRegister true (createScope 0) [1, 4]).1 =
        ["Heading hierarchy violation: Jumping from H1 to H4. Consider using H2 instead."] ∧
      validateHeadingHierarchy (treeOfLevels [1, 4]) =
        ["Heading hierarchy violation: Found H4 after H1. Consider using H2 instead."]) :=
  ⟨by decide, C8_message_names_levels 1 4 (by decide)⟩

/-! ## C10: resetting a scope -/

/-- C10 (reset modelled from the spec, since `src/` exposes no reset
operation): after resetting a scope that went through any pre-reset
registration history, the scope is exactly the freshly created scope, so
the next registration is evaluated exactly as on a fresh scope with the
same initial depth. -/
theorem C10_reset_forgets_history (dev : Bool) (init : Nat) (pre : List Nat) (level : Nat) :
    resetScope ((runRegister dev (createScope init) pre).2) = createScope init ∧
    registerScope dev (resetScope ((runRegister dev (createScope init) pre).2)) level =
      registerScope dev (createScope init) level := by
  have hinit : ((runRegister dev (createScope init) pre).2).initialLevel = init :=
    runRegister_initialLevel dev pre (createScope init)
  have hs : resetScope ((runRegister dev (createScope init) pre).2) = createScope init := by
    simp only [resetScope, createScope] at hinit ⊢
    rw [hinit]
  exact ⟨hs, by rw [hs]⟩

/-! ## C3: legal sequences -/

theorem headingLevel?_headingTag (l : Nat) (h1 : 1 ≤ l) (h6 : l ≤ 6) :
    headingLevel? (headingTag l) = some l := by
  interval_cases l <;> rfl

theorem stepLegal_no_warn (dev : Bool) :
    ∀ (seq : List Nat) (s : HierarchyScope), stepLegal s.currentLevel seq = true →
      (runRegister dev s seq).1 = []
  | [], _, _ => rfl
  | l :: ls, s, h => by
    rw [runRegister_cons]
    simp only [stepLegal, Bool.and_eq_true, decide_eq_true_eq] at h
    obtain ⟨⟨⟨h1, hle⟩, h6⟩, hrest⟩ := h
    have hw := registerHeading_no_warn dev s.currentLevel l hle
    have hnext := stepLegal_no_warn dev ls (registerScope dev s l).2
      (by rw [registerScope_currentLevel]; exact hrest)
    rw [hw, hnext]
    rfl

theorem traverseChildren_cons (t : RNode) (ts : RForest) (st : Nat × List String) :
    traverseChildren (.cons t ts) st = traverseChildren ts (traverseNode t st) := rfl

theorem traverseNode_heading_leaf (l p : Nat) (errs : List String)
    (h1 : 1 ≤ l) (h6 : l ≤ 6) (hle : l ≤ p + 1) :
    traverseNode (.tagElem (headingTag l) .nil) (p, errs) = (l, errs) := by
  have hnot : ¬ (p + 1 < l) := by omega
  show traverseChildren .nil
      (match headingLevel? (headingTag l) with
        | some level =>
          if level > p + 1 then (level, errs ++ [auditMessage p level])
          else (level, errs)
        | none => (p, errs)) = (l, errs)
  rw [headingLevel?_headingTag l h1 h6]
  show traverseChildren .nil
      (if l > p + 1 then (l, errs ++ [auditMessage p l]) else (l, errs)) = (l, errs)
  rw [if_neg hnot]
  rfl

theorem traverseChildren_stepLegal :
    ∀ (seq : List Nat) (p : Nat) (errs : List String), stepLegal p seq = true →
      traverseChildren (forestOf (seq.map fun l => RNode.tagElem (headingTag l) .nil))
          (p, errs) =
        (seq.getLast?.getD p, errs)
  | [], _, _, _ => rfl
  | l :: ls, p, errs, h => by
    simp only [stepLegal, Bool.and_eq_true, decide_eq_true_eq] at h
    obtain ⟨⟨⟨h1, hle⟩, h6⟩, hrest⟩ := h
    show traverseChildren (.cons (RNode.tagElem (headingTag l) .nil) _) (p, errs) = _
    rw [traverseChildren_cons, traverseNode_heading_leaf l p errs h1 h6 hle]
    rw [traverseChildren_stepLegal ls l errs hrest]
    cases ls with
    | nil => rfl
    | cons x xs =>
      rw [List.getLast?_cons_cons,
        List.getLast?_eq_getLast (x :: xs) (List.cons_ne_nil x xs)]
      rfl

/-- C3 counterexample: the sequence `[1, 2, 1, 3]` is legal relative to the
deepest-seen watermark (the final 3 is one below the watermark 2, plus one),
yet both the live tracker and the static audit flag its final step, because
the code compares against the immediately preceding level 1, not against a
watermark. -/
theorem C3_counterexample :
    specWatermarkLegal 0 [1, 2, 1, 3] = true ∧
    (runRegister true (createScope 0) [1, 2, 1, 3]).1 = [warnMessage 1 3] ∧
    validateHeadingHierarchy (treeOfLevels [1, 2, 1, 3]) = [auditMessage 1 3] := by
  decide

/-- C3 amended: for every sequence in which each element is at most one
level deeper than the immediately preceding element (at most one above the
initial depth 0 for the first element), registering the sequence on a fresh
scope produces zero violations and the static audit of the matching tree
returns an empty violation list. -/
theorem C3_step_legal_sequences_clean (seq : List Nat) (h : stepLegal 0 seq = true) :
    (runRegister true (createScope 0) seq).1 = [] ∧
    validateHeadingHierarchy (treeOfLevels seq) = [] := by
  constructor
  · exact stepLegal_no_warn true seq (createScope 0) h
  · show (traverseNode (treeOfLevels seq) (0, [])).2 = []
    show (traverseChildren (forestOf (seq.map fun l => RNode.tagElem (headingTag l) .nil))
      (0, [])).2 = []
    rw [traverseChildren_stepLegal seq 0 [] h]

/-- C3 witness: the amended statement at the spec's concrete legal sequence
`[1, 2, 3, 2, 3]`. -/
theorem C3_witness :
    stepLegal 0 [1, 2, 3, 2, 3] = true ∧
    ((runRegister true (createScope 0) [1, 2, 3, 2, 3]).1 = [] ∧
      validateHeadingHierarchy (treeOfLevels [1, 2, 3, 2, 3]) = []) :=
  ⟨by decide, C3_step_legal_sequences_clean [1, 2, 3, 2, 3] (by decide)⟩

/-! ## C9: the static audit is pure -/

mutual
theorem traverseNode_noHeading (t : RNode) (st : Nat × List String)
    (h : noHeadingTree t = true) : traverseNode t st = st :=
  match t with
  | .textNode _ => rfl
  | .compElem cs => by
    show traverseChildren cs st = st
    exact traverseChildren_noHeading cs st h
  | .tagElem tag cs => by
    simp only [noHeadingTree, Bool.and_eq_true, Option.isNone_iff_eq_none] at h
    show traverseChildren cs
        (match headingLevel? tag with
          | some level =>
            if level > st.1 + 1 then (level, st.2 ++ [auditMessage st.1 level])
            else (level, st.2)
          | none => st) = st
    rw [h.1]
    exact traverseChildren_noHeading cs st h.2

theorem traverseChildren_noHeading (ts : RForest) (st : Nat × List String)
    (h : noHeadingForest ts = true) : traverseChildren ts st = st :=
  match ts with
  | .nil => rfl
  | .cons t ts' => by
    simp only [noHeadingForest, Bool.and_eq_true] at h
    rw [traverseChildren_cons, traverseNode_noHeading t st h.1]
    exact traverseChildren_noHeading ts' st h.2
end

/-- C9: the embedded static audit is a total pure function: it returns an
empty violation list on every tree without headings (in particular on
malformed or heading-free trees it yields `[]` rather than an error), and
running it twice on the same unchanged tree yields identical lists. -/
theorem C9_audit_pure_empty_idempotent (t : RNode) (h : noHeadingTree t = true) :
    validateHeadingHierarchy t = [] ∧
    validateHeadingHierarchy t = validateHeadingHierarchy t := by
  refine ⟨?_, rfl⟩
  show (traverseNode t (0, [])).2 = []
  rw [traverseNode_noHeading t (0, []) h]

/-- C9 witness: a concrete heading-free tree (a `div` holding text and an
empty component element) audits to the empty list. -/
theorem C9_witness :
    noHeadingTree (.tagElem "div" (.cons (.textNode "x") (.cons (.compElem .nil) .nil))) = true ∧
    (validateHeadingHierarchy
        (.tagElem "div" (.cons (.textNode "x") (.cons (.compElem .nil) .nil))) = [] ∧
      validateHeadingHierarchy
          (.tagElem "div" (.cons (.textNode "x") (.cons (.compElem .nil) .nil))) =
        validateHeadingHierarchy
          (.tagElem "div" (.cons (.textNode "x") (.cons (.compElem .nil) .nil)))) :=
  ⟨by decide, C9_audit_pure_empty_idempotent _ (by decide)⟩

/-! ## C4: duplicate top-level detection -/

theorem countLevel_cons (n : Nat) (e : HeadingEvent) (es : List HeadingEvent) :
    countLevel n (e :: es) = countLevel n es + (if e.level = n then 1 else 0) := by
  by_cases h : e.level = n <;> simp [countLevel, List.filter_cons, h]

theorem foldl_scriptStep :
    ∀ (hs : List HeadingEvent) (acc : Nat × Nat × List ScriptViolation),
      (hs.foldl scriptStep acc).2.1 = acc.2.1 + countLevel 1 hs ∧
      ((hs.foldl scriptStep acc).2.2).filter isMultipleH1 = acc.2.2.filter isMultipleH1
  | [], acc => by simp [countLevel]
  | h :: t, acc => by
    have ih := foldl_scriptStep t (scriptStep acc h)
    rw [List.foldl_cons]
    refine ⟨?_, ?_⟩
    · rw [ih.1, countLevel_cons]
      by_cases hh : h.level = 1 <;> simp [scriptStep, hh] <;> omega
    · rw [ih.2]
      by_cases hv : acc.1 + 1 < h.level <;>
        simp [scriptStep, hv, List.filter_append, isMultipleH1]

theorem validateFileHierarchy_multipleH1 (hs : List HeadingEvent) :
    (validateFileHierarchy hs).filter isMultipleH1 =
      if 1 < countLevel 1 hs then [ScriptViolation.multipleH1 (countLevel 1 hs)] else [] := by
  have h1 : (hs.foldl scriptStep (0, 0, [])).2.1 = countLevel 1 hs := by
    have := (foldl_scriptStep hs (0, 0, [])).1
    simpa using this
  have h2 : ((hs.foldl scriptStep (0, 0, [])).2.2).filter isMultipleH1 = [] :=
    (foldl_scriptStep hs (0, 0, [])).2
  show (if (hs.foldl scriptStep (0, 0, [])).2.1 > 1 then
        (hs.foldl scriptStep (0, 0, [])).2.2 ++
          [ScriptViolation.multipleH1 (hs.foldl scriptStep (0, 0, [])).2.1]
      else (hs.foldl scriptStep (0, 0, [])).2.2).filter isMultipleH1 = _
  rw [h1]
  by_cases hc : 1 < countLevel 1 hs
  · rw [if_pos hc, if_pos hc, List.filter_append, h2]
    rfl
  · rw [if_neg hc, if_neg hc, h2]

/-- C4 counterexample: the in-component static audit has no duplicate-H1
rule at all: a tree with the heading sequence `[1, 2, 1]` (two level-1
headings) audits to the empty violation list, as does `[1, 1]`, instead of
containing a duplicate-top-level violation. -/
theorem C4_counterexample :
    validateHeadingHierarchy (treeOfLevels [1, 2, 1]) = [] ∧
    validateHeadingHierarchy (treeOfLevels [1, 1]) = [] := by
  decide

/-- C4 amended: duplicate-top-level detection lives only in the CLI audit
script, which reports exactly one `multiple_h1` violation per file whenever
more than one level-1 heading event occurs (carrying the full count, not
one violation per extra occurrence): the script on events `[1, 2, 1]`
yields no skip and the single `multiple_h1` of count 2, on `[1, 2]` it
yields nothing, while the tree audit of `[1, 2, 1]` stays empty. -/
theorem C4_duplicate_h1_script_only (hs : List HeadingEvent) :
    (validateFileHierarchy hs).filter isMultipleH1 =
      (if 1 < countLevel 1 hs then [ScriptViolation.multipleH1 (countLevel 1 hs)] else []) ∧
    validateFileHierarchy
        [⟨1, 1, false⟩, ⟨2, 2, false⟩, ⟨1, 3, false⟩] = [ScriptViolation.multipleH1 2] ∧
    validateFileHierarchy [⟨1, 1, false⟩, ⟨2, 2, false⟩] = [] ∧
    validateHeadingHierarchy (treeOfLevels [1, 2, 1]) = [] :=
  ⟨validateFileHierarchy_multipleH1 hs, by decide, by decide, by decide⟩

/-! ## C5: the skip rule -/

/-- C5: the per-step rule is the same total comparison in the live tracker
and in the CLI script: for every prior level in 0..6 and observed level in
1..6, a skip is flagged iff `observedLevel > priorLevel + 1`, and an
observed level at or above, equal to, or one below any prior never flags
(in particular a level less than or equal to the prior level never does). -/
theorem C5_rule_iff_skip (prior level h1c line : Nat) (vs : List ScriptViolation)
    (hp : prior ≤ 6) (h1 : 1 ≤ level) (h6 : level ≤ 6) :
    ((registerHeading true prior level).warnings ≠ [] ↔ prior + 1 < level) ∧
    ((scriptStep (prior, h1c, vs)
        { level := level, line := line, isComponent := false }).2.2 ≠ vs ↔
      prior + 1 < level) ∧
    (level ≤ prior → (registerHeading true prior level).warnings = []) := by
  refine ⟨?_, ?_, fun hle => registerHeading_no_warn true prior level (by omega)⟩
  · by_cases h : prior + 1 < level
    · rw [registerHeading_warn prior level h]
      simp [h]
    · rw [registerHeading_no_warn true prior level (by omega)]
      simp [h]
  · by_cases h : prior + 1 < level
    · simp only [scriptStep, if_pos h]
      refine ⟨fun _ => h, fun _ heq => ?_⟩
      have hlen := congrArg List.length heq
      simp at hlen
    · simp [scriptStep, h]

/-- C5 witness: the rule evaluated at prior level 1, observed level 3. -/
theorem C5_witness :
    (1 ≤ 6 ∧ 1 ≤ 3 ∧ 3 ≤ 6) ∧
    (((registerHeading true 1 3).warnings ≠ [] ↔ 1 + 1 < 3) ∧
      ((scriptStep (1, 0, [])
          { level := 3, line := 1, isComponent := false }).2.2 ≠ ([] : List ScriptViolation) ↔
        1 + 1 < 3) ∧
      (3 ≤ 1 → (registerHeading true 1 3).warnings = [])) :=
  ⟨⟨by decide, by decide, by decide⟩,
    C5_rule_iff_skip 1 3 0 1 [] (by decide) (by decide) (by decide)⟩

/-! ## C7: pattern double counting in the CLI script -/

theorem componentMatches_eq_jsxMatches : componentMatches = jsxMatches := rfl

theorem componentSelfClosing_eq_selfClosing :
    componentSelfClosingMatches = selfClosingMatches := rfl

theorem countLvl_cons (n : Nat) (m : Nat × Nat) (ms : List (Nat × Nat)) :
    countLvl n (m :: ms) = countLvl n ms + (if m.2 = n then 1 else 0) := by
  by_cases h : m.2 = n <;> simp [countLvl, List.filter_cons, h]

theorem countLevel_eventsOf (n : Nat) (content : List Char) (b : Bool) :
    ∀ ms : List (Nat × Nat), countLevel n (eventsOf content b ms) = countLvl n ms
  | [] => rfl
  | m :: ms => by
    have ih := countLevel_eventsOf n content b ms
    simp only [eventsOf, List.map_cons] at ih ⊢
    rw [countLevel_cons, countLvl_cons, ih]

theorem countLevel_append (n : Nat) (xs ys : List HeadingEvent) :
    countLevel n (xs ++ ys) = countLevel n xs + countLevel n ys := by
  simp [countLevel, List.filter_append]

theorem countLevel_insertByLine (n : Nat) (e : HeadingEvent) :
    ∀ es : List HeadingEvent, countLevel n (insertByLine e es) = countLevel n (e :: es)
  | [] => rfl
  | x :: xs => by
    have ih := countLevel_insertByLine n e xs
    by_cases h : x.line ≤ e.line
    · simp only [insertByLine, if_pos h]
      rw [countLevel_cons, ih, countLevel_cons, countLevel_cons, countLevel_cons]
      omega
    · simp only [insertByLine, if_neg h]

theorem countLevel_sortByLine (n : Nat) (es : List HeadingEvent) :
    countLevel n (sortByLine es) = countLevel n es := by
  have h : ∀ (l acc : List HeadingEvent),
      countLevel n (l.foldl (fun a e => insertByLine e a) acc) =
        countLevel n acc + countLevel n l := by
    intro l
    induction l with
    | nil => intro acc; simp [countLevel]
    | cons e t ih =>
      intro acc
      rw [List.foldl_cons, ih, countLevel_insertByLine, countLevel_cons, countLevel_cons]
      omega
  have h2 := h es []
  simpa [sortByLine, countLevel] using h2

theorem countLevel_extractHeadings (content : List Char) (n : Nat) :
    countLevel n (extractHeadings content) =
      2 * (countLvl n (jsxMatches content) + countLvl n (selfClosingMatches content)) := by
  show countLevel n (sortByLine _) = _
  rw [countLevel_sortByLine]
  rw [countLevel_append, countLevel_append, countLevel_append]
  rw [countLevel_eventsOf, countLevel_eventsOf, countLevel_eventsOf, countLevel_eventsOf]
  rw [congrFun componentMatches_eq_jsxMatches content]
  rw [congrFun componentSelfClosing_eq_selfClosing content]
  ring

/-- C7: the `jsx` and `component` extraction patterns (and likewise the two
self-closing ones) are identical under the `i` flag, so every heading tag
occurrence is extracted twice: the level-1 event count of `extractHeadings`
is twice the two lowercase scans' combined level-1 match count, and a file
whose content contains exactly one (non-self-closing) level-1 heading tag
gets `h1Count = 2` and is reported with a `multiple_h1` violation. -/
theorem C7_patterns_double_count (content : List Char)
    (hj : countLvl 1 (jsxMatches content) = 1)
    (hs : countLvl 1 (selfClosingMatches content) = 0) :
    componentMatches content = jsxMatches content ∧
    countLevel 1 (extractHeadings content) = 2 ∧
    ScriptViolation.multipleH1 2 ∈ validateFileHierarchy (extractHeadings content) := by
  have hc : countLevel 1 (extractHeadings content) = 2 := by
    rw [countLevel_extractHeadings, hj, hs]
  refine ⟨congrFun componentMatches_eq_jsxMatches content, hc, ?_⟩
  have hm := validateFileHierarchy_multipleH1 (extractHeadings content)
  rw [hc, if_pos (by omega : (1 : Nat) < 2)] at hm
  have hmem : ScriptViolation.multipleH1 2 ∈
      (validateFileHierarchy (extractHeadings content)).filter isMultipleH1 := by
    rw [hm]
    exact List.mem_singleton.mpr rfl
  exact List.mem_of_mem_filter hmem

/-- C7 witness: the file content `<h1>x</h1>` holds exactly one level-1
heading tag, is extracted as two level-1 events, and is reported with the
`multiple_h1` violation. -/
theorem C7_witness :
    (countLvl 1 (jsxMatches "<h1>x</h1>".data) = 1 ∧
      countLvl 1 (selfClosingMatches "<h1>x</h1>".data) = 0) ∧
    (componentMatches "<h1>x</h1>".data = jsxMatches "<h1>x</h1>".data ∧
      countLevel 1 (extractHeadings "<h1>x</h1>".data) = 2 ∧
      ScriptViolation.multipleH1 2 ∈ validateFileHierarchy (extractHeadings "<h1>x</h1>".data)) :=
  ⟨⟨by decide, by decide⟩, C7_patterns_double_count "<h1>x</h1>".data (by decide) (by decide)⟩
